import Mathlib

/-!
Verification development for the appointment scheduling and slot-availability
engine of the `web_can_care` repository.

The definitions below are a shallow embedding of the JavaScript code in
`src/Clerk/Dashboard/Dashboard.jsx` (the clerk `availableSlots`, the
`saveAppointment` clash guard, `getDeptByDoctorName`, `updateStatus`) and in
`src/Chief/Dashboard.js` (the chief `availableSlots`, which additionally
excludes the appointment currently being edited).

Modelling conventions:
* JavaScript strings are Lean `String`s; possibly-`undefined` string fields
  are `Option String` (`none` = `undefined`/`null`).  `===` between two such
  fields is `Option` equality (`undefined === undefined` is `true` in JS,
  matching `none = none`).
* JS truthiness of a string value: `undefined`, `null` and `""` are falsy.
* `x.replace(/\s*(AM|PM)/i, '').trim()` is `normJS`: remove the leftmost
  case-insensitive `AM`/`PM` pair together with the maximal run of
  whitespace immediately before it, then trim both ends.
* `new Date(dateStr)` / `new Date(dateStr + "T00:00:00")` followed by
  `.getDay()` is modelled as naive ISO `YYYY-MM-DD` parsing plus the
  Gregorian day-of-week computation (Sakamoto), per the specification's
  "naive calendar date, no timezone conversion" reading; a string that does
  not parse as a valid ISO calendar date behaves like JS `Invalid Date`.
-/

namespace WebCanCare

/-- Whitespace for the purposes of `\s` in the normalization regex and of
`String.prototype.trim`, restricted to the characters that can occur in the
slot labels handled by this code. -/
def jsWs (c : Char) : Bool :=
  c = ' ' || c = '\t' || c = '\n' || c = '\r'

/-- Left trim on character lists. -/
def trimLeftL (l : List Char) : List Char := l.dropWhile jsWs

/-- JS `String.prototype.trim` on character lists: drop whitespace from both
ends. -/
def jsTrimL (l : List Char) : List Char :=
  ((l.dropWhile jsWs).reverse.dropWhile jsWs).reverse

/-- A pair of characters forming a case-insensitive `AM` or `PM` marker. -/
def isMarkerPair (a b : Char) : Bool :=
  (a.toLower = 'a' || a.toLower = 'p') && b.toLower = 'm'

/-- Worker for `stripMarkerL`: `rev` holds the already-scanned characters in
reverse.  On the leftmost marker pair, the marker and the maximal whitespace
run immediately before it are dropped (this is the match of the regex
`\s*(AM|PM)` with the `i` flag and no `g` flag: a single leftmost match). -/
def stripAux (rev : List Char) : List Char → List Char
  | a :: b :: rest =>
    if isMarkerPair a b then (rev.dropWhile jsWs).reverse ++ rest
    else stripAux (a :: rev) (b :: rest)
  | [a] => (a :: rev).reverse
  | [] => rev.reverse

/-- `l.replace(/\s*(AM|PM)/i, '')` on character lists. -/
def stripMarkerL (l : List Char) : List Char := stripAux [] l

/-- Whether the character list contains a case-insensitive `AM`/`PM` pair. -/
def hasMarkerL : List Char → Bool
  | a :: b :: rest => isMarkerPair a b || hasMarkerL (b :: rest)
  | _ => false

/-- `s.replace(/\s*(AM|PM)/i, '').trim()` — the time-label normalization used
throughout the engine. -/
def normJS (s : String) : String := String.mk (jsTrimL (stripMarkerL s.data))

/-- JS `String.prototype.trim` on strings. -/
def jsTrim (s : String) : String := String.mk (jsTrimL s.data)

/-- Whether a string contains a case-insensitive `AM`/`PM` pair. -/
def hasMarkerStr (s : String) : Bool := hasMarkerL s.data

/-- Whether a string ends in a case-insensitive `AM` or `PM` marker. -/
def hasTrailingMarker (s : String) : Bool :=
  match s.data.reverse with
  | m :: a :: _ => isMarkerPair a m
  | _ => false

theorem dropWhile_dropWhile (p : Char → Bool) (l : List Char) :
    (l.dropWhile p).dropWhile p = l.dropWhile p := by
  induction l with
  | nil => rfl
  | cons c t ih =>
    by_cases h : p c
    · simpa [List.dropWhile_cons, h] using ih
    · simp [List.dropWhile_cons, h]

theorem dropWhile_length_le (p : Char → Bool) (l : List Char) :
    (l.dropWhile p).length ≤ l.length := by
  induction l with
  | nil => simp
  | cons c t ih =>
    by_cases h : p c
    · simp only [List.dropWhile_cons_of_pos h, List.length_cons]
      omega
    · simp [List.dropWhile_cons_of_neg h]

theorem dropWhile_eq_self_of_append (p : Char → Bool) (b r : List Char)
    (h : (b ++ r).dropWhile p = b ++ r) : b.dropWhile p = b := by
  cases b with
  | nil => rfl
  | cons c t =>
    by_cases hc : p c
    · exfalso
      have hlen : ((t ++ r).dropWhile p).length ≤ (t ++ r).length :=
        dropWhile_length_le p (t ++ r)
      rw [List.cons_append, List.dropWhile_cons_of_pos hc] at h
      have : (t ++ r).length + 1 ≤ (t ++ r).length := by
        calc (t ++ r).length + 1 = (c :: (t ++ r)).length := rfl
          _ = ((t ++ r).dropWhile p).length := by rw [h]
          _ ≤ (t ++ r).length := hlen
      omega
    · simp [List.dropWhile_cons, hc]

theorem exists_append_dropWhile (p : Char → Bool) (l : List Char) :
    ∃ w, l = w ++ l.dropWhile p := by
  induction l with
  | nil => exact ⟨[], rfl⟩
  | cons c t ih =>
    by_cases h : p c
    · obtain ⟨w, hw⟩ := ih
      refine ⟨c :: w, ?_⟩
      rw [List.dropWhile_cons_of_pos h, List.cons_append]
      exact congrArg (c :: ·) hw
    · exact ⟨[], by simp [List.dropWhile_cons, h]⟩

theorem jsTrimL_idem (l : List Char) : jsTrimL (jsTrimL l) = jsTrimL l := by
  unfold jsTrimL
  set A := l.dropWhile jsWs with hA
  set B := A.reverse.dropWhile jsWs with hB
  have hBfix : B.dropWhile jsWs = B := by rw [hB]; exact dropWhile_dropWhile _ _
  have hRfix : B.reverse.dropWhile jsWs = B.reverse := by
    obtain ⟨w, hw⟩ := exists_append_dropWhile jsWs A.reverse
    have hArev : A = B.reverse ++ w.reverse := by
      have := congrArg List.reverse hw
      simpa [List.reverse_append] using this
    have hAfix : A.dropWhile jsWs = A := by rw [hA]; exact dropWhile_dropWhile _ _
    exact dropWhile_eq_self_of_append jsWs B.reverse w.reverse (hArev ▸ hAfix)
  rw [hRfix, List.reverse_reverse, hBfix]

theorem jsTrim_idem (s : String) : jsTrim (jsTrim s) = jsTrim s := by
  unfold jsTrim
  exact congrArg String.mk (jsTrimL_idem s.data)

theorem jsTrim_normJS (s : String) : jsTrim (normJS s) = normJS s := by
  unfold jsTrim normJS
  exact congrArg String.mk (jsTrimL_idem (stripMarkerL s.data))

theorem stripAux_no_marker (l : List Char) :
    hasMarkerL l = false → ∀ rev, stripAux rev l = rev.reverse ++ l := by
  induction l with
  | nil => intro _ rev; simp [stripAux]
  | cons a t ih =>
    intro h rev
    cases t with
    | nil => simp [stripAux]
    | cons b rest =>
      have hm : isMarkerPair a b = false := by
        by_contra hc
        simp [hasMarkerL, Bool.or_eq_false_iff] at h
        exact absurd h.1 (by simpa using hc)
      have ht : hasMarkerL (b :: rest) = false := by
        simp [hasMarkerL, Bool.or_eq_false_iff] at h
        exact h.2
      have := ih ht (a :: rev)
      simp only [stripAux, hm, Bool.false_eq_true, if_false]
      rw [this]
      simp

theorem stripMarkerL_no_marker (l : List Char) (h : hasMarkerL l = false) :
    stripMarkerL l = l := by
  unfold stripMarkerL
  simpa using stripAux_no_marker l h []

/-- Split a character list at every occurrence of `c`. -/
def splitCharAux (c : Char) (acc : List Char) : List Char → List (List Char)
  | [] => [acc.reverse]
  | x :: xs =>
    if x = c then acc.reverse :: splitCharAux c [] xs
    else splitCharAux c (x :: acc) xs

/-- Split a character list at every occurrence of `c` (top level). -/
def splitChar (c : Char) (l : List Char) : List (List Char) := splitCharAux c [] l

/-- Numeric value of a decimal digit list. -/
def digitsToNat (l : List Char) : Nat :=
  l.foldl (fun n c => n * 10 + (c.toNat - 48)) 0

/-- Gregorian leap-year test. -/
def isLeap (y : Nat) : Bool := (y % 4 = 0 && y % 100 ≠ 0) || y % 400 = 0

/-- Number of days in the given month of the given year. -/
def daysInMonth (y m : Nat) : Nat :=
  if m = 2 then (if isLeap y then 29 else 28)
  else if m = 4 || m = 6 || m = 9 || m = 11 then 30
  else 31

/-- Parse an ISO `YYYY-MM-DD` calendar date, the format produced by the date
inputs and `fmtDay` in the source.  A string that is not a valid ISO calendar
date yields `none`, corresponding to JS `Invalid Date` (the `isNaN
(date.getTime())` guard in the source). -/
def parseDate (s : String) : Option (Nat × Nat × Nat) :=
  match splitChar '-' s.data with
  | [ys, ms, ds] =>
    if ys.length = 4 && ms.length = 2 && ds.length = 2
        && ys.all Char.isDigit && ms.all Char.isDigit && ds.all Char.isDigit then
      let y := digitsToNat ys
      let m := digitsToNat ms
      let d := digitsToNat ds
      if 1 ≤ m && m ≤ 12 && 1 ≤ d && d ≤ daysInMonth y m then some (y, m, d)
      else none
    else none
  | _ => none

/-- Sakamoto day-of-week table. -/
def sakTable : List Nat := [0, 3, 2, 5, 0, 3, 5, 1, 4, 6, 2, 4]

/-- Gregorian day of week (0 = Sunday … 6 = Saturday), the value of
JS `Date.prototype.getDay()` for a naive calendar date. -/
def dayOfWeek (y m d : Nat) : Nat :=
  let ya := if m < 3 then y - 1 else y
  (ya + ya / 4 - ya / 100 + ya / 400 + sakTable.getD (m - 1) 0 + d) % 7

/-- One weekday's configuration inside a doctor's work schedule
(`{ enabled, slots }` in the source). -/
structure DaySchedule where
  enabled : Bool
  slots : List String
deriving DecidableEq

/-- A doctor's weekly work schedule: the seven weekday keys, each possibly
absent (`none` = key missing in the document). -/
structure WorkSchedule where
  sunday : Option DaySchedule := none
  monday : Option DaySchedule := none
  tuesday : Option DaySchedule := none
  wednesday : Option DaySchedule := none
  thursday : Option DaySchedule := none
  friday : Option DaySchedule := none
  saturday : Option DaySchedule := none
deriving DecidableEq

/-- Weekday lookup `workSchedule[dayNames[date.getDay()]]`. -/
def wsDay (ws : WorkSchedule) : Nat → Option DaySchedule
  | 0 => ws.sunday
  | 1 => ws.monday
  | 2 => ws.tuesday
  | 3 => ws.wednesday
  | 4 => ws.thursday
  | 5 => ws.friday
  | 6 => ws.saturday
  | _ => none

/-- A doctor record, with the fields the scheduling engine reads.  `Option`
fields model possibly-missing document fields. -/
structure Doctor where
  id : Option String := none
  uid : Option String := none
  name : String
  department : Option String := none
  workSchedule : Option WorkSchedule := none
deriving DecidableEq

/-- A patient record, with the fields `saveAppointment` reads. -/
structure Patient where
  id : Option String := none
  name : String
deriving DecidableEq

/-- An appointment document.  The legacy `doctor` field and the newer
`doctorName`/`doctorId` fields are all present as options, matching the
dual-keying in the source. -/
structure Appointment where
  id : Option String := none
  patient : Option String := none
  patientName : Option String := none
  patientId : Option String := none
  doctor : Option String := none
  doctorName : Option String := none
  doctorId : Option String := none
  date : String := ""
  time : String := ""
  status : String := ""
  notes : Option String := none
deriving DecidableEq

/-- JS `a || b` on two possibly-undefined strings: `a` unless it is falsy
(`undefined` or `""`). -/
def jsOr (a b : Option String) : Option String :=
  match a with
  | some s => if s = "" then b else some s
  | none => b

/-- JS truthiness filter: `some s` when the value is a truthy string. -/
def jsTruthy (a : Option String) : Option String :=
  match a with
  | some s => if s = "" then none else some s
  | none => none

/-- JS string interpolation of a possibly-undefined value
(`undefined` prints as `"undefined"`). -/
def jsShow (a : Option String) : String :=
  match a with
  | some s => s
  | none => "undefined"

/-- The dense default grid (`defaultSlots` in both dashboards): 09:00–17:00
in 30-minute steps. -/
def defaultSlots : List String :=
  ["09:00", "09:30", "10:00", "10:30", "11:00", "11:30", "12:00", "12:30",
   "13:00", "13:30", "14:00", "14:30", "15:00", "15:30", "16:00", "16:30",
   "17:00"]

/-- The static legacy `doctorSlots` configuration map at the top of
`src/Clerk/Dashboard/Dashboard.jsx`. -/
def lookupDoctorSlots (n : String) : Option (List String) :=
  if n = "Dr. Omar Khaled" then
    some ["09:00 AM", "10:00 AM", "11:00 AM", "02:00 PM"]
  else if n = "Dr. Lina Yousef" then
    some ["10:00 AM", "11:00 AM", "01:00 PM", "03:00 PM"]
  else none

/-- `pat` occurs as a contiguous sublist of the second argument. -/
def containsL (pat : List Char) : List Char → Bool
  | [] => pat.isEmpty
  | c :: t => pat.isPrefixOf (c :: t) || containsL pat t

/-- Case-sensitive JS `s.includes(pat)`. -/
def containsSub (s pat : String) : Bool := containsL pat.data s.data

/-- The doctor-matching disjunction used by both `availableSlots` taken
filters: `(a.doctor || a.doctorName) === docName || a.doctorId === doctor?.id
|| a.doctorId === doctor?.uid`. -/
def matchesDoctor (doctorOpt : Option Doctor) (docName : String)
    (a : Appointment) : Bool :=
  decide (jsOr a.doctor a.doctorName = some docName)
    || decide (a.doctorId = doctorOpt.bind Doctor.id)
    || decide (a.doctorId = doctorOpt.bind Doctor.uid)

/-- The `taken` computation shared by both dashboards: filter the
appointments to the conflicting ones, normalize their times, drop empties.
`excl` is the per-dashboard exclusion predicate (constantly `true` for the
clerk top-level version). -/
def takenTimes (doctorOpt : Option Doctor) (docName dateStr : String)
    (appointments : List Appointment) (excl : Appointment → Bool) :
    List String :=
  ((appointments.filter (fun a =>
      excl a && matchesDoctor doctorOpt docName a
        && decide (a.date = dateStr)
        && !(decide (a.status = "cancelled"))
        && !(decide (a.status = "Cancelled")))).map
    (fun a => normJS a.time)).filter (fun t => !(decide (t = "")))

/-- A day schedule's usable slots: its `slots` when `enabled` and non-empty,
else nothing (the `daySchedule && daySchedule.enabled && daySchedule.slots &&
daySchedule.slots.length > 0` guard). -/
def usableSlots (ds : DaySchedule) : List String :=
  if ds.enabled && !ds.slots.isEmpty then ds.slots else []

/-- Clerk dashboard: the work-schedule slots for the weekday of `dateStr`
(empty when the doctor is unknown, has no schedule, the date does not parse,
or the day is missing/disabled/empty). -/
def clerkScheduleSlots (doctors : List Doctor) (docName dateStr : String) :
    List String :=
  match doctors.find? (fun d => d.name == docName) with
  | some doctor =>
    match doctor.workSchedule with
    | some ws =>
      match parseDate dateStr with
      | some (y, m, d) =>
        match wsDay ws (dayOfWeek y m d) with
        | some ds => usableSlots ds
        | none => []
      | none => []
    | none => []
  | none => []

/-- Clerk dashboard, fallback 1: the legacy `doctorSlots[docName] ?? []`,
mapped through the normalizer when its first element contains a literal
`AM` or `PM` (case-sensitive `includes`). -/
def clerkFallback1 (docName : String) : List String :=
  match (lookupDoctorSlots docName).getD [] with
  | [] => []
  | s :: rest =>
    if containsSub s "AM" || containsSub s "PM" then
      (s :: rest).map normJS
    else s :: rest

/-- Clerk dashboard: the `base` slot list after the schedule step and the
two fallbacks. -/
def clerkBase (doctors : List Doctor) (docName dateStr : String) :
    List String :=
  match clerkScheduleSlots doctors docName dateStr with
  | [] =>
    match clerkFallback1 docName with
    | [] => defaultSlots
    | b => b
  | b => b

/-- First enabled, non-empty day of a work schedule in Sunday→Saturday
order (the `!dateStr` branch's loop). -/
def dayPick (o : Option DaySchedule) : Option (List String) :=
  match o with
  | some ds => if ds.enabled && !ds.slots.isEmpty then some ds.slots else none
  | none => none

/-- First enabled day's slots, scanning Sunday to Saturday. -/
def firstEnabled (ws : WorkSchedule) : Option (List String) :=
  dayPick ws.sunday <|> dayPick ws.monday <|> dayPick ws.tuesday
    <|> dayPick ws.wednesday <|> dayPick ws.thursday <|> dayPick ws.friday
    <|> dayPick ws.saturday

/-- Clerk dashboard, `!dateStr` branch: return the first enabled day's raw
slots, else the legacy static list, else the default grid — with no
normalization and no subtraction of taken slots. -/
def clerkNoDateSlots (doctors : List Doctor) (docName : String) :
    List String :=
  match doctors.find? (fun d => d.name == docName) with
  | some doctor =>
    match doctor.workSchedule with
    | some ws =>
      match firstEnabled ws with
      | some slots => slots
      | none => (lookupDoctorSlots docName).getD defaultSlots
    | none => (lookupDoctorSlots docName).getD defaultSlots
  | none => (lookupDoctorSlots docName).getD defaultSlots

/-- Clerk dashboard `taken`: no exclusion predicate. -/
def clerkTaken (doctors : List Doctor) (docName dateStr : String)
    (appointments : List Appointment) : List String :=
  takenTimes (doctors.find? (fun d => d.name == docName)) docName dateStr
    appointments (fun _ => true)

/-- The clerk dashboard's `availableSlots(docName, dateStr)`, reading the
component's `doctors` and `appointments` state as explicit arguments
(`src/Clerk/Dashboard/Dashboard.jsx`, lines 213–294). -/
def clerkAvailableSlots (doctors : List Doctor) (docName dateStr : String)
    (appointments : List Appointment) : List String :=
  if dateStr = "" then clerkNoDateSlots doctors docName
  else
    ((clerkBase doctors docName dateStr).map normJS).filter
      (fun s => !((clerkTaken doctors docName dateStr appointments).contains s))

/-- Chief dashboard: the work-schedule slots for the weekday of `dateStr`
(the guard there also requires `dateStr` to be truthy). -/
def chiefScheduleSlots (doctors : List Doctor) (docName dateStr : String) :
    List String :=
  match doctors.find? (fun d => d.name == docName) with
  | some doctor =>
    match doctor.workSchedule with
    | some ws =>
      if dateStr = "" then []
      else
        match parseDate dateStr with
        | some (y, m, d) =>
          match wsDay ws (dayOfWeek y m d) with
          | some ds => usableSlots ds
          | none => []
        | none => []
    | none => []
  | none => []

/-- Chief dashboard `base`: schedule slots, else directly the default grid
(no static legacy fallback there). -/
def chiefBase (doctors : List Doctor) (docName dateStr : String) :
    List String :=
  match chiefScheduleSlots doctors docName dateStr with
  | [] => defaultSlots
  | b => b

/-- Chief dashboard exclusion: `safeForm?.id ? a.id !== safeForm.id : true`
— the appointment being edited (a truthy id) is excluded from the taken
filter. -/
def chiefExcl (excludeId : Option String) (a : Appointment) : Bool :=
  match excludeId with
  | some e => if e = "" then true else decide (a.id ≠ some e)
  | none => true

/-- Chief dashboard `taken`. -/
def chiefTaken (doctors : List Doctor) (docName dateStr : String)
    (appointments : List Appointment) (excludeId : Option String) :
    List String :=
  takenTimes (doctors.find? (fun d => d.name == docName)) docName dateStr
    appointments (chiefExcl excludeId)

/-- The chief dashboard's `availableSlots(docName, dateStr)` with the
surrounding component state (`doctors`, `appointments`, the form id
`safeForm?.id` playing the role of `excludeId`) as explicit arguments
(`src/Chief/Dashboard.js`, lines 687–744). -/
def chiefAvailableSlots (doctors : List Doctor) (docName dateStr : String)
    (appointments : List Appointment) (excludeId : Option String) :
    List String :=
  ((chiefBase doctors docName dateStr).map normJS).filter
    (fun s =>
      !((chiefTaken doctors docName dateStr appointments excludeId).contains s))

/-- The appointment form object `ap` passed to `saveAppointment`. -/
structure ApForm where
  id : Option String := none
  patient : Option String := none
  patientName : Option String := none
  patientId : Option String := none
  doctor : Option String := none
  doctorName : Option String := none
  doctorId : Option String := none
  date : String := ""
  time : String := ""
  status : Option String := none
  notes : Option String := none
deriving DecidableEq

/-- The pre-save clash guard inside `saveAppointment`
(`src/Clerk/Dashboard/Dashboard.jsx`, lines 391–398): some stored
appointment has a different id, matches the doctor via
`a.doctor === ap.doctor || a.doctorId === ap.doctorId ||
a.doctorName === ap.doctor`, the same literal `date` and `time`, and a
status that is not the exact string `"Cancelled"`. -/
def hasClash (appointments : List Appointment) (ap : ApForm) : Bool :=
  appointments.any (fun a =>
    decide (a.id ≠ ap.id)
      && (decide (a.doctor = ap.doctor) || decide (a.doctorId = ap.doctorId)
            || decide (a.doctorName = ap.doctor))
      && decide (a.date = ap.date)
      && decide (a.time = ap.time)
      && decide (a.status ≠ "Cancelled"))

/-- Lower-case a string character-wise (JS `toLowerCase` on ASCII data). -/
def lowerStr (s : String) : String := String.mk (s.data.map Char.toLower)

/-- Modelled from the spec, for comparison with `hasClash`: Contract B
`hasConflict` — same doctor (id or legacy name), same date, *normalized*
time equality, status not Cancelled *case-insensitively*, different id. -/
def specHasConflict (appointments : List Appointment) (ap : ApForm) : Bool :=
  appointments.any (fun a =>
    decide (a.id ≠ ap.id)
      && (decide (a.doctor = ap.doctor) || decide (a.doctorId = ap.doctorId)
            || decide (a.doctorName = ap.doctor))
      && decide (a.date = ap.date)
      && decide (normJS a.time = normJS ap.time)
      && decide (lowerStr a.status ≠ "cancelled"))

/-- JS `s.startsWith(pre)`. -/
def strStartsWith (s pre : String) : Bool := pre.data.isPrefixOf s.data

/-- The doctor lookup used by both branches of `saveAppointment`:
`doctors.find(d => d.name === ap.doctor || d.id === ap.doctorId ||
d.uid === ap.doctorId)`. -/
def findDoctorForSave (doctors : List Doctor) (ap : ApForm) : Option Doctor :=
  doctors.find? (fun d =>
    decide (some d.name = ap.doctor) || decide (d.id = ap.doctorId)
      || decide (d.uid = ap.doctorId))

/-- The `updates` object built in the update branch of `saveAppointment`;
`none` means the field is not written. -/
structure UpdateFields where
  patientName : Option String := none
  patientId : Option String := none
  doctorId : Option String := none
  doctorName : Option String := none
  date : Option String := none
  time : Option String := none
  status : Option String := none
  notes : Option String := none
deriving DecidableEq

/-- Build the `updates` object of the update branch: each field is written
only when the corresponding form value is truthy (for `notes`: whenever it
is not `undefined`). -/
def mkUpdates (doctors : List Doctor) (ap : ApForm) : UpdateFields :=
  let docPair : Option String × Option String :=
    match jsTruthy (jsOr ap.doctor ap.doctorName) with
    | some _ =>
      match findDoctorForSave doctors ap with
      | some doctor => (jsOr doctor.uid doctor.id, some doctor.name)
      | none => (none, none)
    | none => (none, none)
  { patientName := jsTruthy (jsOr ap.patient ap.patientName)
    patientId := jsTruthy ap.patientId
    doctorId := docPair.1
    doctorName := docPair.2
    date := jsTruthy (some ap.date)
    time := jsTruthy (some ap.time)
    status := jsTruthy ap.status
    notes := ap.notes }

/-- The document handed to `createWebAppointment` in the create branch. -/
structure CreatedAppointment where
  patientId : Option String
  patientName : Option String
  doctorId : Option String
  doctorName : Option String
  date : String
  time : String
  status : String
  notes : String
deriving DecidableEq

/-- Build the create-branch document, with all its `||` defaulting chains. -/
def mkCreated (doctors : List Doctor) (patients : List Patient)
    (ap : ApForm) : CreatedAppointment :=
  let doctorOpt := findDoctorForSave doctors ap
  let patientOpt := patients.find? (fun p =>
    decide (some p.name = ap.patient) || decide (p.id = ap.patientId))
  { patientId := jsOr (jsOr (patientOpt.bind Patient.id) ap.patientId) none
    patientName := jsOr (jsOr (patientOpt.map Patient.name) ap.patient)
      ap.patientName
    doctorId := jsOr (jsOr (doctorOpt.bind Doctor.uid) (doctorOpt.bind Doctor.id))
      ap.doctorId
    doctorName := jsOr (jsOr (doctorOpt.map Doctor.name) ap.doctor) ap.doctorName
    date := ap.date
    time := ap.time
    status :=
      match jsTruthy ap.status with
      | some s => s
      | none => "scheduled"
    notes :=
      match ap.notes with
      | some s => s
      | none => "" }

/-- The outcome of `saveAppointment`: a user-facing rejection, an update of
an existing document, or a creation — the only write (or non-write) the
function requests. -/
inductive SaveOutcome where
  | rejected (msg : String)
  | updated (id : String) (u : UpdateFields)
  | created (c : CreatedAppointment)
deriving DecidableEq

/-- `saveAppointment(ap)` of the clerk dashboard
(`src/Clerk/Dashboard/Dashboard.jsx`, lines 388–435): check the clash guard
first and reject; otherwise update when the form id is truthy and does not
start with the locally-generated `"A-"` prefix, else create. -/
def clerkSaveAppointment (doctors : List Doctor) (patients : List Patient)
    (appointments : List Appointment) (ap : ApForm) : SaveOutcome :=
  if hasClash appointments ap then
    .rejected "This slot is already booked for the selected doctor."
  else
    match ap.id with
    | some i =>
      if i ≠ "" && !(strStartsWith i "A-") then
        .updated i (mkUpdates doctors ap)
      else .created (mkCreated doctors patients ap)
    | none => .created (mkCreated doctors patients ap)

/-- `getDeptByDoctorName` (`src/Clerk/Dashboard/Dashboard.jsx`, lines
301–302): the found doctor's `department`, else the sentinel
`"Unknown"`. -/
def getDeptByDoctorName (doctors : List Doctor) (docName : Option String) :
    String :=
  match doctors.find? (fun d => decide (some d.name = docName)) with
  | some d => d.department.getD "Unknown"
  | none => "Unknown"

/-- The waitlist document handed to `createWebWaitlistEntry`. -/
structure WaitlistEntry where
  patient : Option String
  department : String
  preferredDate : String
  notes : String
deriving DecidableEq

/-- The observable outcome of `updateStatus`: the status write that always
happens, the `window.confirm` prompt shown (if any), and the waitlist entry
created (if any). -/
structure UpdateStatusOutcome where
  statusWrite : String × String
  offer : Option String
  waitlist : Option WaitlistEntry
deriving DecidableEq

/-- `updateStatus(id, status)` of the clerk dashboard
(`src/Clerk/Dashboard/Dashboard.jsx`, lines 443–461).  `confirm` is the
operator's answer to the `window.confirm` yes/no decision point. -/
def clerkUpdateStatus (doctors : List Doctor)
    (appointments : List Appointment) (id status : String)
    (confirm : Bool) : UpdateStatusOutcome :=
  if status = "Cancelled" then
    match appointments.find? (fun a => decide (a.id = some id)) with
    | some ap =>
      let dep := getDeptByDoctorName doctors (jsOr ap.doctor ap.doctorName)
      let prompt := "Add " ++ jsShow (jsOr ap.patient ap.patientName)
        ++ " to waitlist for " ++ dep ++ "?"
      if confirm then
        { statusWrite := (id, status)
          offer := some prompt
          waitlist := some
            { patient := jsOr ap.patient ap.patientName
              department := dep
              preferredDate := ap.date
              notes := "Cancelled " ++ jsShow (jsOr ap.doctor ap.doctorName)
                ++ " " ++ ap.time } }
      else { statusWrite := (id, status), offer := some prompt, waitlist := none }
    | none => { statusWrite := (id, status), offer := none, waitlist := none }
  else { statusWrite := (id, status), offer := none, waitlist := none }

/-- The status values offered by the chief dashboard's appointment modal
(`src/Chief/Dashboard.js`, the `AppointmentModal` status `<select>`). -/
def chiefModalStatuses : List String :=
  ["scheduled", "confirmed", "completed", "cancelled"]

/-- C1 (amended): the pre-save clash guard of `saveAppointment` returns true
iff some appointment in the collection has an id different from the form's,
matches the doctor via `a.doctor = ap.doctor` or `a.doctorId = ap.doctorId`
or `a.doctorName = ap.doctor`, has the same literal `date`, the same
*literal* (unnormalized) `time`, and a status different from the exact
string `"Cancelled"` (so the comparison is neither time-normalized nor
case-insensitive on the status). -/
theorem clash_guard_characterization (appointments : List Appointment)
    (ap : ApForm) :
    hasClash appointments ap = true ↔
      ∃ a ∈ appointments,
        a.id ≠ ap.id
        ∧ (a.doctor = ap.doctor ∨ a.doctorId = ap.doctorId
            ∨ a.doctorName = ap.doctor)
        ∧ a.date = ap.date ∧ a.time = ap.time ∧ a.status ≠ "Cancelled" := by
  unfold hasClash
  simp [List.any_eq_true, Bool.and_eq_true, Bool.or_eq_true,
    decide_eq_true_eq, and_assoc, or_assoc]

/-- C1 (counterexample): an appointment whose time reads `"09:30 AM"` is a
conflict for the target time `"09:30"` under the specification's normalized
comparison (`specHasConflict`), but the code's clash guard compares the raw
strings and reports no clash. -/
theorem clash_guard_misses_normalized_time :
    specHasConflict
        [{ id := some "a1", doctor := some "Dr. D", date := "2025-01-06",
           time := "09:30 AM", status := "Scheduled" }]
        { id := some "A2", doctor := some "Dr. D", date := "2025-01-06",
          time := "09:30" } = true
      ∧ hasClash
          [{ id := some "a1", doctor := some "Dr. D", date := "2025-01-06",
             time := "09:30 AM", status := "Scheduled" }]
          { id := some "A2", doctor := some "Dr. D", date := "2025-01-06",
            time := "09:30" } = false := by
  decide

/-- C2: for a doctor whose Monday schedule is enabled with slots 09:00,
09:30, 10:00 and a single Scheduled appointment for that doctor at 09:30 on
the Monday 2025-01-06, both dashboards' `availableSlots` return exactly
`["09:00", "10:00"]`, in that order. -/
theorem monday_scenario_available_slots :
    clerkAvailableSlots
        [{ name := "Dr. D",
           workSchedule := some
             { monday := some ⟨true, ["09:00", "09:30", "10:00"]⟩ } }]
        "Dr. D" "2025-01-06"
        [{ id := some "a1", doctor := some "Dr. D", date := "2025-01-06",
           time := "09:30", status := "Scheduled" }]
      = ["09:00", "10:00"]
    ∧ chiefAvailableSlots
        [{ name := "Dr. D",
           workSchedule := some
             { monday := some ⟨true, ["09:00", "09:30", "10:00"]⟩ } }]
        "Dr. D" "2025-01-06"
        [{ id := some "a1", doctor := some "Dr. D", date := "2025-01-06",
           time := "09:30", status := "Scheduled" }]
        none
      = ["09:00", "10:00"] := by
  constructor <;> rfl

/-- C3: whenever the clash guard fires, `saveAppointment` neither updates
nor creates anything: it returns the "slot already booked" rejection, for
every doctor list, patient list, appointment collection and form. -/
theorem save_rejects_on_clash (doctors : List Doctor)
    (patients : List Patient) (appointments : List Appointment) (ap : ApForm)
    (h : hasClash appointments ap = true) :
    clerkSaveAppointment doctors patients appointments ap =
      .rejected "This slot is already booked for the selected doctor." := by
  unfold clerkSaveAppointment
  rw [h]
  rfl

/-- C3 witness: a concrete clashing booking is rejected. -/
theorem save_rejects_on_clash_witness :
    hasClash
        [{ id := some "a1", doctor := some "Dr. D", date := "2025-01-06",
           time := "09:30", status := "Scheduled" }]
        { id := some "A-2", doctor := some "Dr. D", date := "2025-01-06",
          time := "09:30" } = true
    ∧ clerkSaveAppointment [] []
        [{ id := some "a1", doctor := some "Dr. D", date := "2025-01-06",
           time := "09:30", status := "Scheduled" }]
        { id := some "A-2", doctor := some "Dr. D", date := "2025-01-06",
          time := "09:30" }
      = .rejected "This slot is already booked for the selected doctor." :=
  ⟨by decide,
    save_rejects_on_clash [] []
      [{ id := some "a1", doctor := some "Dr. D", date := "2025-01-06",
         time := "09:30", status := "Scheduled" }]
      { id := some "A-2", doctor := some "Dr. D", date := "2025-01-06",
        time := "09:30" }
      (by decide)⟩

/-- C8 (counterexample): the normalization is not idempotent — on `"AMAM"`
one pass removes the first `AM` and leaves `"AM"`, and a second pass removes
that too, yielding `""`. -/
theorem normalize_not_idempotent :
    normJS (normJS "AMAM") ≠ normJS "AMAM" := by
  decide

/-- C8 (amended): normalization is idempotent on every string whose
normalized form contains no residual case-insensitive `AM`/`PM` pair — in
particular on all canonical `HH:MM` labels and on legacy labels with a
single trailing marker.  (In general, removing the first marker can expose
a new one, so idempotence fails, as `"AMAM"` shows.) -/
theorem normalize_idem_of_no_marker (x : String)
    (h : hasMarkerStr (normJS x) = false) :
    normJS (normJS x) = normJS x := by
  have h1 : stripMarkerL (normJS x).data = (normJS x).data :=
    stripMarkerL_no_marker _ h
  calc normJS (normJS x)
      = String.mk (jsTrimL (stripMarkerL (normJS x).data)) := rfl
    _ = String.mk (jsTrimL (normJS x).data) := by rw [h1]
    _ = jsTrim (normJS x) := rfl
    _ = normJS x := jsTrim_normJS x

/-- C8 witness: the amended idempotence at the legacy label
`"09:30 AM"`. -/
theorem normalize_idem_of_no_marker_witness :
    hasMarkerStr (normJS "09:30 AM") = false
    ∧ normJS (normJS "09:30 AM") = normJS "09:30 AM" :=
  ⟨by decide, normalize_idem_of_no_marker "09:30 AM" (by decide)⟩

theorem takenTimes_cons_of_skip (doctorOpt : Option Doctor)
    (docName dateStr : String) (a : Appointment)
    (appointments : List Appointment) (excl : Appointment → Bool)
    (h : (excl a && matchesDoctor doctorOpt docName a
        && decide (a.date = dateStr)
        && !(decide (a.status = "cancelled"))
        && !(decide (a.status = "Cancelled"))) = false) :
    takenTimes doctorOpt docName dateStr (a :: appointments) excl
      = takenTimes doctorOpt docName dateStr appointments excl := by
  unfold takenTimes
  rw [List.filter_cons, h]
  simp

/-- C4: for every doctor whose work-schedule lookup for the given (parsed)
date yields no usable slots — the day entry missing, disabled regardless of
its slots, or with an empty slot list, the schedule absent entirely, or the
doctor unknown — and who has no entry in the static legacy `doctorSlots`
map, the clerk `availableSlots` with an empty appointment list returns
exactly the 17-entry default grid, never an empty list. -/
theorem default_grid_fallback (doctors : List Doctor)
    (docName dateStr : String)
    (hdate : dateStr ≠ "")
    (hsched : clerkScheduleSlots doctors docName dateStr = [])
    (hstatic : lookupDoctorSlots docName = none) :
    clerkAvailableSlots doctors docName dateStr [] = defaultSlots
      ∧ defaultSlots.length = 17 := by
  constructor
  · unfold clerkAvailableSlots
    rw [if_neg hdate]
    have hbase : clerkBase doctors docName dateStr = defaultSlots := by
      unfold clerkBase clerkFallback1
      rw [hsched, hstatic]
      rfl
    have htaken : clerkTaken doctors docName dateStr [] = [] := rfl
    rw [hbase, htaken]
    have hmap : defaultSlots.map normJS = defaultSlots := by decide
    rw [hmap]
    simp [List.contains]
  · rfl

/-- C4 witness: a doctor whose Monday entry is disabled (with a non-empty
literal slot list) and who is absent from the legacy map gets the default
grid on a Monday. -/
theorem default_grid_fallback_witness :
    ("2025-01-06" ≠ ""
        ∧ clerkScheduleSlots
            [{ name := "Dr. X",
               workSchedule := some { monday := some ⟨false, ["09:00"]⟩ } }]
            "Dr. X" "2025-01-06" = []
        ∧ lookupDoctorSlots "Dr. X" = none)
    ∧ (clerkAvailableSlots
          [{ name := "Dr. X",
             workSchedule := some { monday := some ⟨false, ["09:00"]⟩ } }]
          "Dr. X" "2025-01-06" [] = defaultSlots
        ∧ defaultSlots.length = 17) :=
  ⟨⟨by decide, by decide, by decide⟩,
    default_grid_fallback
      [{ name := "Dr. X",
         workSchedule := some { monday := some ⟨false, ["09:00"]⟩ } }]
      "Dr. X" "2025-01-06" (by decide) (by decide) (by decide)⟩

/-- C5: an appointment whose id equals the exclusion id is treated exactly
as if absent — for the `saveAppointment` clash guard (where the exclusion id
is the form's own id) prepending it changes nothing and alone it never
reports a clash, and for the chief `availableSlots` (whose truthy
`safeForm.id` is the exclusion id) prepending it leaves the availability
unchanged, so its slot is not removed. -/
theorem exclude_id_invariance :
    (∀ (appointments : List Appointment) (ap : ApForm) (a : Appointment),
      a.id = ap.id →
        hasClash (a :: appointments) ap = hasClash appointments ap
          ∧ hasClash [a] ap = false)
    ∧ (∀ (doctors : List Doctor) (docName dateStr : String)
        (appointments : List Appointment) (a : Appointment) (e : String),
      e ≠ "" → a.id = some e →
        chiefAvailableSlots doctors docName dateStr (a :: appointments)
            (some e)
          = chiefAvailableSlots doctors docName dateStr appointments
              (some e)) := by
  constructor
  · intro appointments ap a h
    constructor <;> simp [hasClash, h]
  · intro doctors docName dateStr appointments a e he ha
    have hpred : chiefExcl (some e) a = false := by
      simp [chiefExcl, he, ha]
    unfold chiefAvailableSlots chiefTaken
    rw [takenTimes_cons_of_skip]
    rw [hpred]
    simp

/-- C5 witness: with exclusion id `"a1"`, prepending the appointment
`"a1"` changes neither the clash verdict nor the chief availability, and a
collection holding only that appointment has no clash. -/
theorem exclude_id_invariance_witness :
    (hasClash
        [{ id := some "a1", doctor := some "Dr. D", date := "2025-01-06",
           time := "09:30", status := "Scheduled" },
         { id := some "b2", doctor := some "Dr. D", date := "2025-01-06",
           time := "10:00", status := "Scheduled" }]
        { id := some "a1", doctor := some "Dr. D", date := "2025-01-06",
          time := "09:30" }
      = hasClash
          [{ id := some "b2", doctor := some "Dr. D", date := "2025-01-06",
             time := "10:00", status := "Scheduled" }]
          { id := some "a1", doctor := some "Dr. D", date := "2025-01-06",
            time := "09:30" }
      ∧ hasClash
          [{ id := some "a1", doctor := some "Dr. D", date := "2025-01-06",
             time := "09:30", status := "Scheduled" }]
          { id := some "a1", doctor := some "Dr. D", date := "2025-01-06",
            time := "09:30" } = false)
    ∧ chiefAvailableSlots
        [{ name := "Dr. D",
           workSchedule := some
             { monday := some ⟨true, ["09:00", "09:30", "10:00"]⟩ } }]
        "Dr. D" "2025-01-06"
        [{ id := some "a1", doctor := some "Dr. D", date := "2025-01-06",
           time := "09:30", status := "Scheduled" }]
        (some "a1")
      = chiefAvailableSlots
          [{ name := "Dr. D",
             workSchedule := some
               { monday := some ⟨true, ["09:00", "09:30", "10:00"]⟩ } }]
          "Dr. D" "2025-01-06" [] (some "a1") :=
  ⟨exclude_id_invariance.1
      [{ id := some "b2", doctor := some "Dr. D", date := "2025-01-06",
         time := "10:00", status := "Scheduled" }]
      { id := some "a1", doctor := some "Dr. D", date := "2025-01-06",
        time := "09:30" }
      { id := some "a1", doctor := some "Dr. D", date := "2025-01-06",
        time := "09:30", status := "Scheduled" }
      (by decide),
    exclude_id_invariance.2
      [{ name := "Dr. D",
         workSchedule := some
           { monday := some ⟨true, ["09:00", "09:30", "10:00"]⟩ } }]
      "Dr. D" "2025-01-06" []
      { id := some "a1", doctor := some "Dr. D", date := "2025-01-06",
        time := "09:30", status := "Scheduled" }
      "a1" (by decide) (by decide)⟩

/-- C6 (counterexample): an appointment whose status is `"CANCELLED"`
(upper case) still occupies its slot — `"09:30"` is among the normalized
candidate slots but missing from the availability, because the filter only
recognizes the exact strings `"cancelled"` and `"Cancelled"`. -/
theorem uppercase_cancelled_still_blocks :
    "09:30" ∈ (clerkBase
        [{ name := "Dr. D",
           workSchedule := some
             { monday := some ⟨true, ["09:00", "09:30", "10:00"]⟩ } }]
        "Dr. D" "2025-01-06").map normJS
    ∧ "09:30" ∉ clerkAvailableSlots
        [{ name := "Dr. D",
           workSchedule := some
             { monday := some ⟨true, ["09:00", "09:30", "10:00"]⟩ } }]
        "Dr. D" "2025-01-06"
        [{ id := some "a1", doctor := some "Dr. D", date := "2025-01-06",
           time := "09:30", status := "CANCELLED" }] := by
  decide

/-- C6 (amended): an appointment whose status is one of the exact strings
`"cancelled"` or `"Cancelled"` does not occupy its slot: the clerk
`availableSlots` behaves as if it were absent from the collection.  Other
casings such as `"CANCELLED"` still block the slot. -/
theorem exact_cancelled_frees_slot (doctors : List Doctor)
    (docName dateStr : String) (a : Appointment)
    (appointments : List Appointment)
    (h : a.status = "cancelled" ∨ a.status = "Cancelled") :
    clerkAvailableSlots doctors docName dateStr (a :: appointments)
      = clerkAvailableSlots doctors docName dateStr appointments := by
  by_cases hd : dateStr = ""
  · simp [clerkAvailableSlots, hd]
  · unfold clerkAvailableSlots clerkTaken
    rw [if_neg hd, if_neg hd, takenTimes_cons_of_skip]
    rcases h with h | h <;> simp [h]

/-- C6 witness: a lowercase-`"cancelled"` appointment at 09:30 leaves the
availability identical to the empty collection, so 09:30 stays
available. -/
theorem exact_cancelled_frees_slot_witness :
    clerkAvailableSlots
        [{ name := "Dr. D",
           workSchedule := some
             { monday := some ⟨true, ["09:00", "09:30", "10:00"]⟩ } }]
        "Dr. D" "2025-01-06"
        [{ id := some "a1", doctor := some "Dr. D", date := "2025-01-06",
           time := "09:30", status := "cancelled" }]
      = clerkAvailableSlots
          [{ name := "Dr. D",
             workSchedule := some
               { monday := some ⟨true, ["09:00", "09:30", "10:00"]⟩ } }]
          "Dr. D" "2025-01-06" [] :=
  exact_cancelled_frees_slot
    [{ name := "Dr. D",
       workSchedule := some
         { monday := some ⟨true, ["09:00", "09:30", "10:00"]⟩ } }]
    "Dr. D" "2025-01-06"
    { id := some "a1", doctor := some "Dr. D", date := "2025-01-06",
      time := "09:30", status := "cancelled" }
    [] (by decide)

/-- C7 (counterexample): with an empty date argument the clerk
`availableSlots` returns the legacy static labels verbatim — the returned
label `"09:00 AM"` carries a trailing AM marker, so not every returned label
is normalized. -/
theorem no_date_labels_unnormalized :
    "09:00 AM" ∈ clerkAvailableSlots [] "Dr. Omar Khaled" "" []
      ∧ hasTrailingMarker "09:00 AM" = true := by
  decide

/-- C7 (amended): when a non-empty date argument is supplied (parseable or
not), every label returned by the clerk `availableSlots` is the single-pass
normalization of some base label, and in particular carries no surrounding
whitespace; with an empty/absent date the labels are returned verbatim and
may retain AM/PM markers. -/
theorem dated_labels_normalized (doctors : List Doctor)
    (docName dateStr : String) (appointments : List Appointment)
    (lbl : String)
    (hdate : dateStr ≠ "")
    (hmem : lbl ∈ clerkAvailableSlots doctors docName dateStr appointments) :
    jsTrim lbl = lbl ∧ ∃ s, lbl = normJS s := by
  unfold clerkAvailableSlots at hmem
  rw [if_neg hdate] at hmem
  have hmap := (List.mem_filter.mp hmem).1
  obtain ⟨s, _, rfl⟩ := List.mem_map.mp hmap
  exact ⟨jsTrim_normJS s, s, rfl⟩

/-- C7 witness: the label 09:00 returned for an unknown doctor on a dated
query is trim-stable and in the image of the normalizer. -/
theorem dated_labels_normalized_witness :
    jsTrim "09:00" = "09:00" ∧ ∃ s, "09:00" = normJS s :=
  dated_labels_normalized [] "Dr. Z" "2025-01-06" [] "09:00" (by decide)
    (by decide)

/-- C9: when `updateStatus` sets the status to `"Cancelled"` and the
appointment is found, the operator is shown a confirm prompt (an explicit
yes/no decision, in both answers); answering yes creates exactly one
waitlist entry whose department is `getDeptByDoctorName` of the
appointment's doctor — the literal `"Unknown"` whenever no doctor record
resolves — whose `preferredDate` is the cancelled appointment's date and
whose notes are the trace `"Cancelled <doctor> <time>"`; answering no
creates no entry while the status write still happens. -/
theorem cancel_offers_waitlist (doctors : List Doctor)
    (appointments : List Appointment) (id : String) (ap : Appointment)
    (hfind : appointments.find? (fun a => decide (a.id = some id)) = some ap) :
    (clerkUpdateStatus doctors appointments id "Cancelled" true).offer.isSome
        = true
    ∧ (clerkUpdateStatus doctors appointments id "Cancelled" false).offer.isSome
        = true
    ∧ (clerkUpdateStatus doctors appointments id "Cancelled" true).waitlist
        = some
          { patient := jsOr ap.patient ap.patientName
            department :=
              getDeptByDoctorName doctors (jsOr ap.doctor ap.doctorName)
            preferredDate := ap.date
            notes := "Cancelled " ++ jsShow (jsOr ap.doctor ap.doctorName)
              ++ " " ++ ap.time }
    ∧ (clerkUpdateStatus doctors appointments id "Cancelled" false).waitlist
        = none
    ∧ (clerkUpdateStatus doctors appointments id "Cancelled" false).statusWrite
        = (id, "Cancelled")
    ∧ (doctors.find?
          (fun d => decide (some d.name = jsOr ap.doctor ap.doctorName))
            = none →
        getDeptByDoctorName doctors (jsOr ap.doctor ap.doctorName)
          = "Unknown") := by
  refine ⟨?_, ?_, ?_, ?_, ?_, ?_⟩
  · simp [clerkUpdateStatus, hfind]
  · simp [clerkUpdateStatus, hfind]
  · simp [clerkUpdateStatus, hfind]
  · simp [clerkUpdateStatus, hfind]
  · simp [clerkUpdateStatus, hfind]
  · intro h
    unfold getDeptByDoctorName
    rw [h]

/-- C9 witness: cancelling the found appointment of a doctor with no
record resolves the department to `"Unknown"`, confirms create the entry,
declines create none. -/
theorem cancel_offers_waitlist_witness :
    ([({ id := some "a1", patient := some "Pat", doctor := some "Dr. G",
         date := "2025-01-06", time := "09:30",
         status := "Scheduled" } : Appointment)].find?
          (fun a => decide (a.id = some "a1"))
        = some { id := some "a1", patient := some "Pat",
                 doctor := some "Dr. G", date := "2025-01-06",
                 time := "09:30", status := "Scheduled" })
    ∧ (clerkUpdateStatus []
          [{ id := some "a1", patient := some "Pat", doctor := some "Dr. G",
             date := "2025-01-06", time := "09:30", status := "Scheduled" }]
          "a1" "Cancelled" true).waitlist
        = some
          { patient := some "Pat", department := "Unknown",
            preferredDate := "2025-01-06",
            notes := "Cancelled Dr. G 09:30" }
    ∧ (clerkUpdateStatus []
          [{ id := some "a1", patient := some "Pat", doctor := some "Dr. G",
             date := "2025-01-06", time := "09:30", status := "Scheduled" }]
          "a1" "Cancelled" false).waitlist = none :=
  ⟨by decide,
    by
      have h := cancel_offers_waitlist []
        [{ id := some "a1", patient := some "Pat", doctor := some "Dr. G",
           date := "2025-01-06", time := "09:30", status := "Scheduled" }]
        "a1"
        { id := some "a1", patient := some "Pat", doctor := some "Dr. G",
          date := "2025-01-06", time := "09:30", status := "Scheduled" }
        (by decide)
      exact h.2.2.1,
    by
      have h := cancel_offers_waitlist []
        [{ id := some "a1", patient := some "Pat", doctor := some "Dr. G",
           date := "2025-01-06", time := "09:30", status := "Scheduled" }]
        "a1"
        { id := some "a1", patient := some "Pat", doctor := some "Dr. G",
          date := "2025-01-06", time := "09:30", status := "Scheduled" }
        (by decide)
      exact h.2.2.2.1⟩

/-- C10: `updateStatus` offers the waitlist only on the exact string
`"Cancelled"`: for any other status value — including the lowercase
`"cancelled"` that the chief dashboard's own appointment modal offers as a
selectable status — the status write still happens but no prompt is shown
and no waitlist entry is created, whatever the operator would answer. -/
theorem waitlist_only_exact_cancelled (doctors : List Doctor)
    (appointments : List Appointment) (id status : String) (confirm : Bool)
    (h : status ≠ "Cancelled") :
    (clerkUpdateStatus doctors appointments id status confirm).statusWrite
        = (id, status)
    ∧ (clerkUpdateStatus doctors appointments id status confirm).offer = none
    ∧ (clerkUpdateStatus doctors appointments id status confirm).waitlist
        = none
    ∧ "cancelled" ∈ chiefModalStatuses := by
  refine ⟨?_, ?_, ?_, by decide⟩ <;> simp [clerkUpdateStatus, h]

/-- C10 witness: lowercase `"cancelled"` on a found appointment updates the
status but never offers or creates a waitlist entry. -/
theorem waitlist_only_exact_cancelled_witness :
    (clerkUpdateStatus []
        [{ id := some "a1", patient := some "Pat", doctor := some "Dr. G",
           date := "2025-01-06", time := "09:30", status := "Scheduled" }]
        "a1" "cancelled" true).statusWrite = ("a1", "cancelled")
    ∧ (clerkUpdateStatus []
        [{ id := some "a1", patient := some "Pat", doctor := some "Dr. G",
           date := "2025-01-06", time := "09:30", status := "Scheduled" }]
        "a1" "cancelled" true).offer = none
    ∧ (clerkUpdateStatus []
        [{ id := some "a1", patient := some "Pat", doctor := some "Dr. G",
           date := "2025-01-06", time := "09:30", status := "Scheduled" }]
        "a1" "cancelled" true).waitlist = none
    ∧ "cancelled" ∈ chiefModalStatuses :=
  waitlist_only_exact_cancelled []
    [{ id := some "a1", patient := some "Pat", doctor := some "Dr. G",
       date := "2025-01-06", time := "09:30", status := "Scheduled" }]
    "a1" "cancelled" true (by decide)

end WebCanCare
